import Mathlib

/-!
Shallow embedding of the PRUDP server core of the nex-go repository:
the server dispatch head (dialect detection), packet validation
(processPacket), endpoint binding (BindPRUDPEndPoint), outbound
fragmentation (PRUDPServer.Send), the payload transform decision of
sendPacket, the input byte stream (ByteStreamIn) with its length
validated reads, the length prefixed Buffer decoder, and the DateTime
bit packing.  Bytes are modelled as Nat, Go slices as List Nat, Go maps
as functions into Option, and Go errors as Option of small inductive
error types.  A Go runtime panic (index or slice out of range) is
modelled as the value none of an Option result.
-/

/-- Wire dialects of the protocol: legacy v0, v1, and the WebSocket lite
dialect. -/
inductive PRUDPDialect where
  | lite
  | v1
  | v0
deriving DecidableEq, Repr

/-- Dialect detection head of PRUDPServer.handleSocketMessage for the non
lite branches.  The Go code evaluates bytes.Equal(packetData[:2], {0xEA, 0xD0});
the slice expression packetData[:2] panics when the buffer holds fewer than
two bytes, which is modelled as the result none. -/
def detectNonLite (packetData : List Nat) : Option PRUDPDialect :=
  if packetData.length < 2 then none
  else if packetData.take 2 = [0xEA, 0xD0] then some PRUDPDialect.v1
  else some PRUDPDialect.v0

/-- Dialect detection head of PRUDPServer.handleSocketMessage.  The Go
condition is (ps.websocketServer != nil && packetData[0] == 0x80): when the
websocket server is active the index packetData[0] is evaluated before any
length check and panics on an empty buffer (modelled as none); otherwise the
short circuit falls through to the two byte magic comparison of
detectNonLite. -/
def handleSocketMessage (websocketServerActive : Bool) (packetData : List Nat) :
    Option PRUDPDialect :=
  if websocketServerActive then
    match packetData.head? with
    | none => none
    | some b0 =>
      if b0 = 0x80 then some PRUDPDialect.lite
      else detectNonLite packetData
  else detectNonLite packetData

/-- Payload transform chosen by PRUDPServer.sendPacket for the outgoing
packet copy. -/
inductive PayloadTransform where
  | noTransform
  | compressEncrypt
  | unreliableCrypto
deriving DecidableEq, Repr

/-- Payload transform decision of PRUDPServer.sendPacket: for a DATA packet
that is neither an ack nor a multi ack, a reliable packet gets the
compression then encryption pipeline; an unreliable packet gets the
unreliable crypto transform unless packet.Version() is 2 (the lite
dialect), which is skipped. -/
def sendPacketPayloadTransform (isData ack multiAck reliable : Bool)
    (version : Nat) : PayloadTransform :=
  if isData && !ack && !multiAck then
    if reliable then PayloadTransform.compressEncrypt
    else if version ≠ 2 then PayloadTransform.unreliableCrypto
    else PayloadTransform.noTransform
  else PayloadTransform.noTransform

/-- Modelled from the spec: the constants package is not under src.  The
spec describes the stream type of a virtual port as a 2 bit field, so the
largest valid stream type (constants.StreamTypeRelay) is modelled as 3. -/
def StreamTypeRelay : Nat := 3

/-- Source port validation of PRUDPServer.processPacket.  The Go code sets
invalidSourcePort on (isLite && port > 31), with an else branch setting it
on (port > 15); because of the else if chain a lite packet whose port is
between 16 and 31 falls through to the second test. -/
def invalidSourcePort (isLite : Bool) (sourcePortNumber : Nat) : Bool :=
  if isLite = true ∧ 31 < sourcePortNumber then true
  else if 15 < sourcePortNumber then true
  else false

/-- PRUDPEndPoint, keeping the fields the embedded operations touch: the
stream id, the back reference set by BindPRUDPEndPoint (a server id), and a
type parameter abstracting the remaining fields (connections, handlers). -/
structure PRUDPEndPointM (α : Type) where
  StreamID : Nat
  Server : Option Nat
  Data : α
deriving DecidableEq, Repr

/-- The Endpoints MutexMap of the server, modelled as a function from
stream ids to optionally bound endpoints (MutexMap.Has tests isSome,
MutexMap.Set updates one key). -/
def EndpointsMap (α : Type) : Type :=
  Nat → Option (PRUDPEndPointM α)

/-- PRUDPServer.BindPRUDPEndPoint: when the stream id is already bound the
call logs a warning and returns leaving the map untouched; otherwise it
sets endpoint.Server to the calling server and installs the endpoint. -/
def BindPRUDPEndPoint (serverId : Nat) (endpoints : EndpointsMap α)
    (endpoint : PRUDPEndPointM α) : EndpointsMap α :=
  if (endpoints endpoint.StreamID).isSome then endpoints
  else fun id =>
    if id = endpoint.StreamID then some { endpoint with Server := some serverId }
    else endpoints id

/-- Errors returned by PRUDPServer.processPacket, one per fmt.Errorf site. -/
inductive ProcessPacketError where
  | unboundEndpoint
  | mismatchedStreamTypes
  | invalidDestinationStreamType
  | invalidSourceStreamType
  | invalidSourcePortNumber
deriving DecidableEq, Repr

/-- The fields of a decoded PRUDP packet consulted by processPacket: the
dialect (the Go code performs a type assertion to PRUDPPacketLite) and the
stream type and stream id of both virtual ports. -/
structure PRUDPPacketM where
  isLite : Bool
  destinationVirtualPortStreamType : Nat
  destinationVirtualPortStreamID : Nat
  sourceVirtualPortStreamType : Nat
  sourceVirtualPortStreamID : Nat
deriving DecidableEq, Repr

/-- PRUDPServer.processPacket: rejects a packet whose destination stream id
is unbound, whose stream types differ or exceed StreamTypeRelay, or whose
source port fails invalidSourcePort; only after every check passes is the
packet handed to the endpoint (returned as the ok value, modelling
endpoint.processPacket on a fresh socket connection).  An error return
performs no state mutation: nothing is delivered and no connection is
created. -/
def processPacket (endpoints : EndpointsMap α) (packet : PRUDPPacketM) :
    Except ProcessPacketError (PRUDPEndPointM α × PRUDPPacketM) :=
  match endpoints packet.destinationVirtualPortStreamID with
  | none => Except.error ProcessPacketError.unboundEndpoint
  | some endpoint =>
    if packet.destinationVirtualPortStreamType ≠ packet.sourceVirtualPortStreamType then
      Except.error ProcessPacketError.mismatchedStreamTypes
    else if StreamTypeRelay < packet.destinationVirtualPortStreamType then
      Except.error ProcessPacketError.invalidDestinationStreamType
    else if StreamTypeRelay < packet.sourceVirtualPortStreamType then
      Except.error ProcessPacketError.invalidSourceStreamType
    else if invalidSourcePort packet.isLite packet.sourceVirtualPortStreamID then
      Except.error ProcessPacketError.invalidSourcePortNumber
    else
      Except.ok (endpoint, packet)

/-- PRUDPServer, keeping the fields the embedded operations read. -/
structure PRUDPServerM where
  Endpoints : EndpointsMap Unit
  SessionKeyLength : Nat
  FragmentSize : Nat

/-- NewPRUDPServer: a fresh server with an empty endpoints map, session key
length 32 and fragment size 1300. -/
def NewPRUDPServer : PRUDPServerM where
  Endpoints := fun _ => none
  SessionKeyLength := 32
  FragmentSize := 1300

/-- Fragmentation loop of PRUDPServer.Send.  The Go loop runs
(len(data) / FragmentSize) + 1 times; each iteration either emits the final
chunk with fragment id 0 (when the remaining data is shorter than the
fragment size) or emits a full chunk carrying the current fragment id (a
uint8, so increments wrap modulo 256) and drops that chunk from the data.
The result lists the (fragment id, payload) pairs in emission order. -/
def sendLoop (fragmentSize : Nat) : Nat → Nat → List Nat → List (Nat × List Nat)
  | 0, _, _ => []
  | k + 1, fragmentID, data =>
    if data.length < fragmentSize then
      (0, data) :: sendLoop fragmentSize k fragmentID data
    else
      (fragmentID, data.take fragmentSize)
        :: sendLoop fragmentSize k ((fragmentID + 1) % 256) (data.drop fragmentSize)

/-- PRUDPServer.Send on a PRUDP packet: fragments the payload with the
configured fragment size, starting from fragment id 1. -/
def PRUDPServerM.Send (ps : PRUDPServerM) (data : List Nat) : List (Nat × List Nat) :=
  sendLoop ps.FragmentSize (data.length / ps.FragmentSize + 1) 1 data

/-- Errors returned by the ByteStreamIn read helpers. -/
inductive StreamError where
  | readOOB
  | notEnoughData
deriving DecidableEq, Repr

/-- ByteStreamIn: a byte buffer plus the current read offset (the crunch
Buffer byte offset). -/
structure ByteStreamIn where
  data : List Nat
  off : Nat
deriving DecidableEq, Repr

/-- ByteStreamIn.Remaining: the number of bytes left after the offset. -/
def ByteStreamIn.Remaining (bsi : ByteStreamIn) : Nat :=
  bsi.data.length - bsi.off

/-- ByteStreamIn.Read: returns an error (with an empty result and the
stream untouched) when the requested length exceeds the remaining bytes,
and otherwise the next length bytes with the offset advanced. -/
def ByteStreamIn.Read (bsi : ByteStreamIn) (length : Nat) :
    (List Nat × Option StreamError) × ByteStreamIn :=
  if bsi.Remaining < length then (([], some StreamError.readOOB), bsi)
  else (((bsi.data.drop bsi.off).take length, none),
    { bsi with off := bsi.off + length })

/-- Little endian decoding of four bytes, as crunch ReadU32LENext does. -/
def u32LE (bytes : List Nat) : Nat :=
  bytes.getD 0 0 + bytes.getD 1 0 * 256 + bytes.getD 2 0 * 65536
    + bytes.getD 3 0 * 16777216

/-- ByteStreamIn.ReadPrimitiveUInt32LE: errors when fewer than four bytes
remain, otherwise decodes the next four bytes little endian. -/
def ByteStreamIn.ReadPrimitiveUInt32LE (bsi : ByteStreamIn) :
    (Nat × Option StreamError) × ByteStreamIn :=
  if bsi.Remaining < 4 then ((0, some StreamError.notEnoughData), bsi)
  else ((u32LE ((bsi.data.drop bsi.off).take 4), none),
    { bsi with off := bsi.off + 4 })

/-- Buffer.ExtractFrom: reads a uint32 length field and then that many
bytes; either failing read aborts with an error (modelled as none) before
any out of bounds access. -/
def Buffer.ExtractFrom (readable : ByteStreamIn) :
    Option (List Nat) × ByteStreamIn :=
  match readable.ReadPrimitiveUInt32LE with
  | ((_, some _), rest) => (none, rest)
  | ((length, none), rest) =>
    match rest.Read length with
    | ((_, some _), rest2) => (none, rest2)
    | ((value, none), rest2) => (some value, rest2)

/-- DateTime.Make: packs the six fields with shifts and bitwise or on a 64
bit machine integer; the final conversion to uint64 is the reduction modulo
2 to the 64. -/
def DateTime.Make (year month day hour minute second : Nat) : Nat :=
  (second ||| minute <<< 6 ||| hour <<< 12 ||| day <<< 17 ||| month <<< 22
    ||| year <<< 26) % 2 ^ 64

/-- DateTime.Second: value & 63. -/
def DateTime.Second (value : Nat) : Nat := value &&& 63

/-- DateTime.Minute: (value >> 6) & 63. -/
def DateTime.Minute (value : Nat) : Nat := (value >>> 6) &&& 63

/-- DateTime.Hour: (value >> 12) & 31. -/
def DateTime.Hour (value : Nat) : Nat := (value >>> 12) &&& 31

/-- DateTime.Day: (value >> 17) & 31. -/
def DateTime.Day (value : Nat) : Nat := (value >>> 17) &&& 31

/-- DateTime.Month: (value >> 22) & 15. -/
def DateTime.Month (value : Nat) : Nat := (value >>> 22) &&& 15

/-- DateTime.Year: value >> 26. -/
def DateTime.Year (value : Nat) : Nat := value >>> 26

/-- Claim C2: the dialect detection head of handleSocketMessage panics (the
modelled result none) on the failing inputs: an empty datagram on a UDP
only server or a websocket server, and a one byte datagram that does not
match the lite tag, because packetData[:2] is evaluated without a length
check.  This contradicts the stated totality over arbitrary byte input. -/
theorem handleSocketMessage_panics_on_short_buffer :
    handleSocketMessage false [] = none
    ∧ handleSocketMessage true [] = none
    ∧ handleSocketMessage false [0x17] = none
    ∧ handleSocketMessage true [0x17] = none := by
  refine ⟨rfl, rfl, rfl, rfl⟩

/-- Claim C3 counterexample: a lite packet with source port 32 on a bound
endpoint with matching, in range stream types is rejected by processPacket
with the source port error, refuting the stated acceptance of port 32 on
the lite dialect. -/
theorem processPacket_rejects_port32_lite :
    processPacket
      (fun id => if id = 1 then some (⟨1, none, 0⟩ : PRUDPEndPointM Nat) else none)
      ⟨true, 1, 1, 1, 32⟩
      = Except.error ProcessPacketError.invalidSourcePortNumber := by
  rfl

/-- Claim C3 (amended): processPacket rejects source port 32 for the non
lite dialects and, contrary to the claim, also for the lite dialect; the
else if chain makes invalidSourcePort hold exactly when the port exceeds
15, for every dialect. -/
theorem processPacket_source_port_validation :
    (∀ (isLite : Bool) (port : Nat),
      invalidSourcePort isLite port = decide (15 < port))
    ∧ processPacket
        (fun id => if id = 1 then some (⟨1, none, 0⟩ : PRUDPEndPointM Nat) else none)
        ⟨false, 1, 1, 1, 32⟩
        = Except.error ProcessPacketError.invalidSourcePortNumber
    ∧ processPacket
        (fun id => if id = 1 then some (⟨1, none, 0⟩ : PRUDPEndPointM Nat) else none)
        ⟨true, 1, 1, 1, 32⟩
        = Except.error ProcessPacketError.invalidSourcePortNumber := by
  refine ⟨?_, rfl, rfl⟩
  intro isLite port
  cases isLite <;> simp only [invalidSourcePort] <;> split_ifs <;> simp_all
  all_goals omega

/-- Claim C4 counterexample: a reliable lite DATA packet (version 2,
neither ack nor multi ack) has its payload put through the compression then
encryption pipeline by sendPacket, refuting the statement that no
encryption transform is ever applied to a lite packet payload. -/
theorem sendPacket_encrypts_reliable_lite :
    sendPacketPayloadTransform true false false true 2
      = PayloadTransform.compressEncrypt
    ∧ sendPacketPayloadTransform true false false true 2
      ≠ PayloadTransform.noTransform := by
  refine ⟨rfl, by decide⟩

/-- Claim C4 (amended): for lite packets (version 2) sendPacket never
applies the unreliable crypto transform, but the reliable compress then
encrypt pipeline is applied exactly to reliable non ack DATA packets of
every dialect, lite included. -/
theorem sendPacket_lite_payload_transform :
    ∀ (isData ack multiAck reliable : Bool),
      sendPacketPayloadTransform isData ack multiAck reliable 2
        ≠ PayloadTransform.unreliableCrypto
      ∧ (sendPacketPayloadTransform isData ack multiAck reliable 2
          = PayloadTransform.compressEncrypt
        ↔ isData = true ∧ ack = false ∧ multiAck = false ∧ reliable = true) := by
  decide

/-- Claim C5: every validation failure in processPacket (unbound
destination stream id, mismatched stream types, a stream type above the
valid range, or an oversized source port) produces an explicit error, and
therefore no packet is handed to any endpoint and no connection is
created. -/
theorem processPacket_error_on_validation_failure
    (endpoints : EndpointsMap α) (packet : PRUDPPacketM)
    (h : (endpoints packet.destinationVirtualPortStreamID).isNone
      ∨ packet.destinationVirtualPortStreamType ≠ packet.sourceVirtualPortStreamType
      ∨ StreamTypeRelay < packet.destinationVirtualPortStreamType
      ∨ StreamTypeRelay < packet.sourceVirtualPortStreamType
      ∨ invalidSourcePort packet.isLite packet.sourceVirtualPortStreamID = true) :
    ∃ e, processPacket endpoints packet = Except.error e := by
  unfold processPacket
  cases heq : endpoints packet.destinationVirtualPortStreamID with
  | none => exact ⟨ProcessPacketError.unboundEndpoint, rfl⟩
  | some endpoint =>
    rw [heq] at h
    dsimp only
    split_ifs with h1 h2 h3 h4
    · exact ⟨ProcessPacketError.mismatchedStreamTypes, rfl⟩
    · exact ⟨ProcessPacketError.invalidDestinationStreamType, rfl⟩
    · exact ⟨ProcessPacketError.invalidSourceStreamType, rfl⟩
    · exact ⟨ProcessPacketError.invalidSourcePortNumber, rfl⟩
    · rcases h with h | h | h | h | h
      · simp at h
      · exact absurd h h1
      · omega
      · omega
      · exact absurd h h4

/-- Claim C5 witness: a concrete packet aimed at an empty endpoints map is
rejected with an error. -/
theorem processPacket_error_on_validation_failure_witness :
    ((fun _ => (none : Option (PRUDPEndPointM Nat)))
        (PRUDPPacketM.mk false 1 0 1 3).destinationVirtualPortStreamID).isNone
    ∧ ∃ e, processPacket (fun _ => (none : Option (PRUDPEndPointM Nat)))
        (PRUDPPacketM.mk false 1 0 1 3) = Except.error e :=
  ⟨by decide,
    processPacket_error_on_validation_failure _ _ (Or.inl (by decide))⟩

/-- Claim C7: binding an endpoint whose stream id is already bound leaves
the endpoints map unchanged: the previously bound endpoint remains, the new
endpoint is not installed, and no failure is reported. -/
theorem BindPRUDPEndPoint_noop_when_bound (serverId : Nat)
    (endpoints : EndpointsMap α) (endpoint : PRUDPEndPointM α)
    (h : (endpoints endpoint.StreamID).isSome) :
    BindPRUDPEndPoint serverId endpoints endpoint = endpoints := by
  unfold BindPRUDPEndPoint
  rw [if_pos h]

/-- Claim C7 witness: rebinding stream id 1, already bound to an endpoint
with data 7, with a different endpoint carrying data 9, leaves the map
unchanged. -/
theorem BindPRUDPEndPoint_noop_when_bound_witness :
    ((fun id => if id = 1 then some (⟨1, none, 7⟩ : PRUDPEndPointM Nat) else none)
      (PRUDPEndPointM.mk 1 none 9).StreamID).isSome
    ∧ BindPRUDPEndPoint 0
        (fun id => if id = 1 then some (⟨1, none, 7⟩ : PRUDPEndPointM Nat) else none)
        (PRUDPEndPointM.mk 1 none 9)
      = fun id => if id = 1 then some (⟨1, none, 7⟩ : PRUDPEndPointM Nat) else none :=
  ⟨by decide, BindPRUDPEndPoint_noop_when_bound 0 _ _ (by decide)⟩

/-- Claim C8: a freshly constructed server has fragment size 1300 and
session key length 32. -/
theorem NewPRUDPServer_defaults :
    NewPRUDPServer.FragmentSize = 1300 ∧ NewPRUDPServer.SessionKeyLength = 32 :=
  ⟨rfl, rfl⟩

/-- Claim C9: ByteStreamIn.Read is atomic on failure: when the requested
length exceeds the remaining byte count it returns an empty byte slice
together with an error and leaves the stream (data and read position)
unchanged. -/
theorem Read_atomic_on_failure (bsi : ByteStreamIn) (length : Nat)
    (h : bsi.Remaining < length) :
    bsi.Read length = (([], some StreamError.readOOB), bsi) := by
  unfold ByteStreamIn.Read
  rw [if_pos h]

/-- Claim C9 witness: reading five bytes from a stream with one remaining
byte fails without consuming input. -/
theorem Read_atomic_on_failure_witness :
    (⟨[1, 2], 1⟩ : ByteStreamIn).Remaining < 5
    ∧ (⟨[1, 2], 1⟩ : ByteStreamIn).Read 5
      = (([], some StreamError.readOOB), (⟨[1, 2], 1⟩ : ByteStreamIn)) :=
  ⟨by decide, Read_atomic_on_failure _ _ (by decide)⟩

/-- Claim C6: length prefixed decoding is validated: ByteStreamIn.Read
returns a malformed input error whenever the stated length exceeds the
remaining bytes, and Buffer.ExtractFrom, which reads a uint32 length and
then that many bytes, fails rather than reading out of bounds both when
fewer than four bytes remain and when its stated length field exceeds the
bytes remaining after it. -/
theorem length_prefixed_read_validates :
    (∀ (bsi : ByteStreamIn) (length : Nat), bsi.Remaining < length →
      (bsi.Read length).1.2 = some StreamError.readOOB)
    ∧ (∀ bsi : ByteStreamIn, 4 ≤ bsi.Remaining →
      bsi.Remaining - 4 < u32LE ((bsi.data.drop bsi.off).take 4) →
      (Buffer.ExtractFrom bsi).1 = none)
    ∧ (∀ bsi : ByteStreamIn, bsi.Remaining < 4 →
      (Buffer.ExtractFrom bsi).1 = none) := by
  refine ⟨?_, ?_, ?_⟩
  · intro bsi length h
    rw [Read_atomic_on_failure bsi length h]
  · intro bsi h4 hlen
    have hread : ({ bsi with off := bsi.off + 4 } : ByteStreamIn).Remaining
        < u32LE ((bsi.data.drop bsi.off).take 4) := by
      show bsi.data.length - (bsi.off + 4) < _
      unfold ByteStreamIn.Remaining at h4 hlen
      omega
    unfold Buffer.ExtractFrom ByteStreamIn.ReadPrimitiveUInt32LE
    rw [if_neg (by omega)]
    dsimp only
    rw [Read_atomic_on_failure _ _ hread]
  · intro bsi h4
    unfold Buffer.ExtractFrom ByteStreamIn.ReadPrimitiveUInt32LE
    rw [if_pos h4]

/-- Claim C6 witness: a buffer whose length field states five bytes while
only two remain is rejected by Buffer.ExtractFrom. -/
theorem length_prefixed_read_validates_witness :
    4 ≤ (⟨[5, 0, 0, 0, 1, 2], 0⟩ : ByteStreamIn).Remaining
    ∧ (⟨[5, 0, 0, 0, 1, 2], 0⟩ : ByteStreamIn).Remaining - 4
      < u32LE (((⟨[5, 0, 0, 0, 1, 2], 0⟩ : ByteStreamIn).data.drop
          (⟨[5, 0, 0, 0, 1, 2], 0⟩ : ByteStreamIn).off).take 4)
    ∧ (Buffer.ExtractFrom (⟨[5, 0, 0, 0, 1, 2], 0⟩ : ByteStreamIn)).1 = none :=
  ⟨by decide, by decide,
    length_prefixed_read_validates.2.1 _ (by decide) (by decide)⟩

/-- Helper: closed form of the fragmentation loop.  Running the loop its
(quotient plus one) iterations emits the full chunks, carrying fragment ids
counting up from the start id modulo 256, followed by one final chunk with
fragment id 0 holding whatever remains (empty when the payload length is an
exact multiple of the fragment size). -/
theorem sendLoop_eq (fs : Nat) (hfs : 0 < fs) :
    ∀ (m : Nat) (data : List Nat) (fid : Nat), fid < 256 → data.length / fs = m →
    sendLoop fs (m + 1) fid data
      = (List.range m).map
          (fun i => ((fid + i) % 256, (data.drop (i * fs)).take fs))
        ++ [(0, data.drop (m * fs))] := by
  intro m
  induction m with
  | zero =>
    intro data fid hfid hm
    have hlen : data.length < fs := (Nat.div_eq_zero_iff hfs).1 hm
    simp [sendLoop, hlen]
  | succ m ih =>
    intro data fid hfid hm
    have hge : fs ≤ data.length := by
      by_contra hc
      push_neg at hc
      rw [Nat.div_eq_of_lt hc] at hm
      omega
    have hstep : (data.length - fs) / fs = m := by
      have h2 := Nat.div_eq_sub_div hfs hge
      rw [hm] at h2
      exact (Nat.add_right_cancel h2.symm)
    have hdrop : (data.drop fs).length / fs = m := by
      rw [List.length_drop]
      exact hstep
    have hnot : ¬ data.length < fs := by omega
    rw [show sendLoop fs (m + 1 + 1) fid data
        = (fid, data.take fs)
          :: sendLoop fs (m + 1) ((fid + 1) % 256) (data.drop fs) from by
      simp [sendLoop, hnot]]
    rw [ih (data.drop fs) ((fid + 1) % 256) (Nat.mod_lt _ (by norm_num)) hdrop]
    rw [List.range_succ_eq_map, List.map_cons, List.map_map, List.cons_append]
    congr 1
    · simp [Nat.mod_eq_of_lt hfid]
    congr 1
    · refine List.map_congr_left ?_
      intro i _
      simp only [Function.comp_apply]
      rw [Nat.mod_add_mod, List.drop_drop]
      simp only [Prod.mk.injEq]
      refine ⟨by omega, ?_⟩
      rw [Nat.succ_mul, Nat.add_comm (i * fs) fs]
    · rw [List.drop_drop]
      rw [Nat.succ_mul, Nat.add_comm (m * fs) fs]

/-- Helper: closed form of PRUDPServer.Send. -/
theorem Send_eq (ps : PRUDPServerM) (data : List Nat) (h : 0 < ps.FragmentSize) :
    ps.Send data
      = (List.range (data.length / ps.FragmentSize)).map
          (fun i => ((1 + i) % 256,
            (data.drop (i * ps.FragmentSize)).take ps.FragmentSize))
        ++ [(0, data.drop (data.length / ps.FragmentSize * ps.FragmentSize))] :=
  sendLoop_eq ps.FragmentSize h _ data 1 (by norm_num) rfl

/-- Helper: joining the first k full chunks of a list yields its first
k times fs elements. -/
theorem join_chunks (fs : Nat) (data : List Nat) :
    ∀ k : Nat,
      ((List.range k).map (fun i => (data.drop (i * fs)).take fs)).flatten
        = data.take (k * fs) := by
  intro k
  induction k with
  | zero => simp
  | succ k ih =>
    rw [List.range_succ, List.map_append, List.flatten_append, ih]
    simp only [List.map_cons, List.map_nil, List.flatten_cons, List.flatten_nil,
      List.append_nil]
    rw [Nat.succ_mul, List.take_add]

/-- Claim C1 (amended): Send splits a payload into (length over fragment
size, rounded down) full chunks carrying fragment ids counting up from 1
(modulo 256) followed by one final chunk with fragment id 0; the chunk
payloads concatenate back to the original bytes.  When the payload length
is an exact multiple of the fragment size the final fragment id 0 chunk is
empty, so a payload of 3900 bytes with fragment size 1300 yields four
fragments with ids 1, 2, 3, 0, not three. -/
theorem Send_fragments_spec (ps : PRUDPServerM) (data : List Nat)
    (h : 0 < ps.FragmentSize) :
    ((ps.Send data).map Prod.snd).flatten = data
    ∧ (ps.Send data).map Prod.fst
      = (List.range (data.length / ps.FragmentSize)).map (fun i => (1 + i) % 256)
        ++ [0]
    ∧ (ps.Send data).length = data.length / ps.FragmentSize + 1 := by
  rw [Send_eq ps data h]
  refine ⟨?_, ?_, ?_⟩
  · rw [List.map_append, List.flatten_append, List.map_map]
    simp only [Function.comp_def]
    rw [join_chunks]
    simp [List.take_append_drop]
  · rw [List.map_append, List.map_map]
    simp [Function.comp_def]
  · simp

/-- Claim C1 witness: with fragment size 2, the five byte payload
9 8 7 6 5 splits into chunks with ids 1, 2, 0 that concatenate back. -/
theorem Send_fragments_spec_witness :
    0 < ({ NewPRUDPServer with FragmentSize := 2 } : PRUDPServerM).FragmentSize
    ∧ ((({ NewPRUDPServer with FragmentSize := 2 } : PRUDPServerM).Send
          [9, 8, 7, 6, 5]).map Prod.snd).flatten = [9, 8, 7, 6, 5]
    ∧ (({ NewPRUDPServer with FragmentSize := 2 } : PRUDPServerM).Send
          [9, 8, 7, 6, 5]).map Prod.fst
      = (List.range (([9, 8, 7, 6, 5] : List Nat).length
          / ({ NewPRUDPServer with FragmentSize := 2 } : PRUDPServerM).FragmentSize)).map
            (fun i => (1 + i) % 256) ++ [0]
    ∧ (({ NewPRUDPServer with FragmentSize := 2 } : PRUDPServerM).Send
          [9, 8, 7, 6, 5]).length
      = ([9, 8, 7, 6, 5] : List Nat).length
          / ({ NewPRUDPServer with FragmentSize := 2 } : PRUDPServerM).FragmentSize + 1 :=
  ⟨by decide, Send_fragments_spec _ _ (by decide)⟩

/-- Claim C1 counterexample: a payload of 3900 bytes with the default
fragment size 1300 is split into four fragments with ids 1, 2, 3, 0 (the
last one empty), not into three fragments with ids 1, 2, 0 as claimed. -/
theorem Send_3900_not_three_fragments :
    (NewPRUDPServer.Send (List.replicate 3900 0)).length = 4
    ∧ (NewPRUDPServer.Send (List.replicate 3900 0)).map Prod.fst = [1, 2, 3, 0]
    ∧ (NewPRUDPServer.Send (List.replicate 3900 0)).map Prod.fst ≠ [1, 2, 0] := by
  have h := Send_eq NewPRUDPServer (List.replicate 3900 0) (by norm_num [NewPRUDPServer])
  have hq : (List.replicate 3900 (0 : Nat)).length / NewPRUDPServer.FragmentSize = 3 := by
    rw [List.length_replicate]
    rfl
  rw [hq] at h
  have h2 : (NewPRUDPServer.Send (List.replicate 3900 0)).map Prod.fst
      = [1, 2, 3, 0] := by
    rw [h, List.map_append, List.map_map, List.map_singleton]
    rw [show List.range 3 = [0, 1, 2] from rfl]
    rfl
  refine ⟨?_, h2, by rw [h2]; decide⟩
  rw [h, List.length_append, List.length_map, List.length_range]
  rfl

/-- Helper: bitwise or with a shifted value is addition when the low bits
are free. -/
theorem lor_shiftLeft_eq_add (a b n : Nat) (h : a < 2 ^ n) :
    a ||| b <<< n = a + b * 2 ^ n := by
  rw [Nat.shiftLeft_eq, Nat.or_comm, mul_comm b (2 ^ n), ← Nat.mul_add_lt_is_or h b]
  ring

/-- Helper: under the field bounds the DateTime bit packing equals the sum
of the shifted fields, and the uint64 conversion changes nothing. -/
theorem DateTime_Make_value (year month day hour minute second : Nat)
    (hs : second < 64) (hmi : minute < 64) (hh : hour < 32) (hd : day < 32)
    (hmo : month < 16) (hy : year < 2 ^ 37) :
    DateTime.Make year month day hour minute second
      = second + minute * 2 ^ 6 + hour * 2 ^ 12 + day * 2 ^ 17 + month * 2 ^ 22
        + year * 2 ^ 26 := by
  unfold DateTime.Make
  rw [lor_shiftLeft_eq_add second minute 6 (by omega)]
  rw [lor_shiftLeft_eq_add _ hour 12 (by omega)]
  rw [lor_shiftLeft_eq_add _ day 17 (by omega)]
  rw [lor_shiftLeft_eq_add _ month 22 (by omega)]
  rw [lor_shiftLeft_eq_add _ year 26 (by omega)]
  rw [Nat.mod_eq_of_lt (by omega)]

/-- Claim C10: DateTime.Make round trips with the field accessors for all
second and minute below 64, hour and day below 32, month below 16, and
year below 2 to the 37 (so that year shifted left by 26 bits stays below 2
to the 63 and does not overflow a 64 bit signed integer). -/
theorem DateTime_Make_roundtrip (year month day hour minute second : Nat)
    (hs : second < 64) (hmi : minute < 64) (hh : hour < 32) (hd : day < 32)
    (hmo : month < 16) (hy : year < 2 ^ 37) :
    DateTime.Second (DateTime.Make year month day hour minute second) = second
    ∧ DateTime.Minute (DateTime.Make year month day hour minute second) = minute
    ∧ DateTime.Hour (DateTime.Make year month day hour minute second) = hour
    ∧ DateTime.Day (DateTime.Make year month day hour minute second) = day
    ∧ DateTime.Month (DateTime.Make year month day hour minute second) = month
    ∧ DateTime.Year (DateTime.Make year month day hour minute second) = year := by
  have hv := DateTime_Make_value year month day hour minute second hs hmi hh hd hmo hy
  unfold DateTime.Second DateTime.Minute DateTime.Hour DateTime.Day
    DateTime.Month DateTime.Year
  rw [hv]
  refine ⟨?_, ?_, ?_, ?_, ?_, ?_⟩
  · rw [show (63 : Nat) = 2 ^ 6 - 1 from rfl, Nat.and_pow_two_sub_one_eq_mod]
    omega
  · rw [Nat.shiftRight_eq_div_pow, show (63 : Nat) = 2 ^ 6 - 1 from rfl,
      Nat.and_pow_two_sub_one_eq_mod]
    omega
  · rw [Nat.shiftRight_eq_div_pow, show (31 : Nat) = 2 ^ 5 - 1 from rfl,
      Nat.and_pow_two_sub_one_eq_mod]
    omega
  · rw [Nat.shiftRight_eq_div_pow, show (31 : Nat) = 2 ^ 5 - 1 from rfl,
      Nat.and_pow_two_sub_one_eq_mod]
    omega
  · rw [Nat.shiftRight_eq_div_pow, show (15 : Nat) = 2 ^ 4 - 1 from rfl,
      Nat.and_pow_two_sub_one_eq_mod]
    omega
  · rw [Nat.shiftRight_eq_div_pow]
    omega

/-- Claim C10 witness: the concrete date 2024-12-31 23:59:58 round trips
through the packed representation. -/
theorem DateTime_Make_roundtrip_witness :
    58 < 64 ∧ 59 < 64 ∧ 23 < 32 ∧ 31 < 32 ∧ 12 < 16 ∧ 2024 < 2 ^ 37
    ∧ (DateTime.Second (DateTime.Make 2024 12 31 23 59 58) = 58
      ∧ DateTime.Minute (DateTime.Make 2024 12 31 23 59 58) = 59
      ∧ DateTime.Hour (DateTime.Make 2024 12 31 23 59 58) = 23
      ∧ DateTime.Day (DateTime.Make 2024 12 31 23 59 58) = 31
      ∧ DateTime.Month (DateTime.Make 2024 12 31 23 59 58) = 12
      ∧ DateTime.Year (DateTime.Make 2024 12 31 23 59 58) = 2024) :=
  ⟨by decide, by decide, by decide, by decide, by decide, by decide,
    DateTime_Make_roundtrip 2024 12 31 23 59 58 (by decide) (by decide)
      (by decide) (by decide) (by decide) (by decide)⟩
